import Mathlib

/-!
Verification of the YAAI monitoring frontend (Vue/TypeScript) and the
spec-described drift engine contracts it relies on.

Source-translated definitions come from:
- `frontend/src/types/index.ts` (data model interfaces)
- `frontend/src/api/jobs.ts` (jobs API client)
- `DriftResultsPage.vue` (`getFieldResults`, `getFieldLatestScore`,
  `driftCount`, `healthPercentage`, `saveThreshold`, `rerunAllJobs`)
- `ComparisonPage` pure helpers (`getDriftColor`)
- the notifications page (`displayItems` grouping)

Parts of the drift engine (evaluator, aggregator, scheduler backfill) are a
Python backend that is not part of the frontend sources; definitions for
those are modelled from the spec and marked as such in their doc comments.

Numbers are modelled as `ℚ` (JS numbers, no rounding behaviour at stake
except `Math.round`, modelled explicitly), timestamps as `ℤ` milliseconds
(`Date.getTime()`), and JSON field bags as association lists over a small
JSON value type.
-/

/-- A small JSON value universe used to state "which fields does this
record expose" claims about the TypeScript interfaces. -/
inductive JsonVal where
  | null : JsonVal
  | str (s : String) : JsonVal
  | num (q : ℚ) : JsonVal
  | boolean (b : Bool) : JsonVal
deriving DecidableEq, Repr

/-- Encode an optional string the way a nullable TS field serialises:
`null` when absent, the string otherwise. -/
def optStr : Option String → JsonVal
  | none => .null
  | some s => .str s

/-- `SchemaField` from `frontend/src/types/index.ts` (fields relevant to
drift evaluation). -/
structure SchemaField where
  id : String
  field_name : String
  direction : String
  data_type : String
  drift_metric : Option String
  alert_threshold : Option ℚ
deriving DecidableEq, Repr

/-- `DriftWindowInfo` from `frontend/src/types/index.ts`. -/
structure DriftWindowInfo where
  configured_window_days : ℚ
  actual_window_days : ℚ
  window_extended : Bool
  min_samples : ℚ
  sample_count : ℚ
deriving DecidableEq, Repr

/-- The JSON field bag of a `DriftWindowInfo`, in interface declaration
order. -/
def DriftWindowInfo.fields (w : DriftWindowInfo) : List (String × JsonVal) :=
  [ ("configured_window_days", .num w.configured_window_days)
  , ("actual_window_days", .num w.actual_window_days)
  , ("window_extended", .boolean w.window_extended)
  , ("min_samples", .num w.min_samples)
  , ("sample_count", .num w.sample_count) ]

/-- The `details` bag of a `DriftResult`
(`Record<string, unknown> & { window?: DriftWindowInfo }`): an optional
`window` entry plus arbitrary further keys, which we leave abstract. -/
structure DriftDetails where
  window : Option DriftWindowInfo
deriving DecidableEq, Repr

/-- `DriftResult` from `frontend/src/types/index.ts`. `created_at` is the
millisecond timestamp the frontend obtains via `new Date(...).getTime()`. -/
structure DriftResult where
  id : String
  job_run_id : Option String
  schema_field_id : String
  field_name : String
  metric_name : String
  score : ℚ
  threshold : ℚ
  is_drifted : Bool
  details : DriftDetails
  created_at : ℤ
deriving DecidableEq, Repr

/-- `JobRun.status` from `frontend/src/types/index.ts`:
`'pending' | 'running' | 'completed' | 'failed'`. -/
inductive JobStatus where
  | pending | running | completed | failed
deriving DecidableEq, Repr

def JobStatus.toString : JobStatus → String
  | .pending => "pending"
  | .running => "running"
  | .completed => "completed"
  | .failed => "failed"

/-- `JobRun` from `frontend/src/types/index.ts`: `started_at` is a plain
string, `completed_at` and `error_message` are `string | null`. -/
structure JobRun where
  id : String
  job_config_id : String
  status : JobStatus
  started_at : String
  completed_at : Option String
  error_message : Option String
deriving DecidableEq, Repr

/-- The JSON field bag of a `JobRun`, in interface declaration order. -/
def JobRun.fields (r : JobRun) : List (String × JsonVal) :=
  [ ("id", .str r.id)
  , ("job_config_id", .str r.job_config_id)
  , ("status", .str r.status.toString)
  , ("started_at", .str r.started_at)
  , ("completed_at", optStr r.completed_at)
  , ("error_message", optStr r.error_message) ]

/-- `JobHistoryItem` as declared in `frontend/src/api/jobs.ts` and
`JobsPage.vue`: the shape of one entry of `getHistory(jobId)`. -/
structure JobHistoryItem where
  id : String
  status : String
  drifts_detected : ℚ
  run_at : String
deriving DecidableEq, Repr

/-- The JSON field bag of a `JobHistoryItem`, in interface declaration
order. -/
def JobHistoryItem.fields (h : JobHistoryItem) : List (String × JsonVal) :=
  [ ("id", .str h.id)
  , ("status", .str h.status)
  , ("drifts_detected", .num h.drifts_detected)
  , ("run_at", .str h.run_at) ]

/-- `DriftScore` from `frontend/src/types/index.ts`. -/
structure DriftScore where
  metric_name : String
  metric_value : ℚ
  is_drifted : Bool
  threshold : ℚ
deriving DecidableEq, Repr

/-- The part of `ComparisonPanel` that `getDriftColor` inspects:
`drift_score?: DriftScore`. -/
structure ComparisonPanel where
  field_name : String
  drift_score : Option DriftScore
deriving DecidableEq, Repr

/-- `getDriftColor` from the ComparisonPage pure helpers:
grey when no drift score, warning when drifted, success otherwise. -/
def getDriftColor (panel : ComparisonPanel) : String :=
  match panel.drift_score with
  | none => "grey"
  | some s => if s.is_drifted then "warning" else "success"

/-- Modelled from the spec: the numerical data-type default alert threshold
(PSI default, the spec's worked PSI example flags drift against 0.2); the
evaluator producing persisted `DriftResult`s is in the backend, which is
not among the frontend sources. -/
def numericalDefaultThreshold : ℚ := 2 / 10

/-- Modelled from the spec: the categorical data-type default alert
threshold (Chi-Squared default, the spec's example uses the 0.05
significance threshold). -/
def categoricalDefaultThreshold : ℚ := 5 / 100

/-- Modelled from the spec: the threshold the drift evaluator applies for a
field — the field's `alert_threshold` if set, else the data-type default. -/
def effectiveThreshold (field : SchemaField) : ℚ :=
  match field.alert_threshold with
  | some t => t
  | none =>
      if field.data_type = "categorical" then categoricalDefaultThreshold
      else numericalDefaultThreshold

/-- Modelled from the spec: the drift evaluator persisting a `DriftResult`
for one field of one run with `is_drifted = score > threshold`; the
evaluator itself is backend code not among the frontend sources. -/
def mkDriftResult (rid : String) (runId : Option String) (field : SchemaField)
    (metric : String) (score : ℚ) (details : DriftDetails)
    (createdAt : ℤ) : DriftResult :=
  { id := rid
  , job_run_id := runId
  , schema_field_id := field.id
  , field_name := field.field_name
  , metric_name := metric
  , score := score
  , threshold := effectiveThreshold field
  , is_drifted := decide (score > effectiveThreshold field)
  , details := details
  , created_at := createdAt }

/-- C1: every persisted DriftResult has `is_drifted` true exactly when
`score > threshold`, with the threshold being the field's `alert_threshold`
when set and the data-type default otherwise; and the frontend's styling
(`getDriftColor`) colours a scored panel "warning" exactly when
`is_drifted` is set, i.e. exactly when the score exceeds the threshold. -/
theorem driftResult_is_drifted_iff_score_gt_threshold
    (rid : String) (runId : Option String) (field : SchemaField)
    (metric : String) (score : ℚ) (details : DriftDetails) (createdAt : ℤ) :
    let r := mkDriftResult rid runId field metric score details createdAt
    (r.is_drifted = true ↔ r.score > r.threshold) ∧
    (r.threshold = match field.alert_threshold with
      | some t => t
      | none =>
          if field.data_type = "categorical" then categoricalDefaultThreshold
          else numericalDefaultThreshold) ∧
    (∀ fn, getDriftColor ⟨fn, some ⟨r.metric_name, r.score, r.is_drifted, r.threshold⟩⟩
        = (if r.score > r.threshold then "warning" else "success")) := by
  refine ⟨?_, rfl, ?_⟩
  · simp [mkDriftResult]
  · intro fn
    simp only [mkDriftResult, getDriftColor]
    by_cases h : score > effectiveThreshold field <;> simp [h]

/-- C2: whenever a DriftResult carries window diagnostics, `details.window`
exposes exactly the five fields `configured_window_days`,
`actual_window_days`, `window_extended`, `min_samples`, `sample_count`,
with `window_extended` a boolean and `min_samples`/`sample_count`
numbers. -/
theorem driftResult_window_fields (r : DriftResult)
    (h : r.details.window ≠ none) :
    ∃ w, r.details.window = some w ∧
      (w.fields.map Prod.fst =
        [ "configured_window_days", "actual_window_days", "window_extended"
        , "min_samples", "sample_count" ]) ∧
      (∃ b, ("window_extended", JsonVal.boolean b) ∈ w.fields) ∧
      (∃ q, ("min_samples", JsonVal.num q) ∈ w.fields) ∧
      (∃ q, ("sample_count", JsonVal.num q) ∈ w.fields) := by
  match hw : r.details.window with
  | none => exact absurd hw h
  | some w =>
    refine ⟨w, rfl, rfl, ⟨w.window_extended, ?_⟩, ⟨w.min_samples, ?_⟩,
      ⟨w.sample_count, ?_⟩⟩ <;> simp [DriftWindowInfo.fields]

/-- Witness for C2 at a concrete result carrying window diagnostics. -/
theorem driftResult_window_fields_witness :
    ∃ w, (DriftResult.details
        ⟨"r1", some "run1", "f1", "age", "psi", 1/2, 1/10, true,
          ⟨some ⟨7, 14, true, 200, 250⟩⟩, 0⟩).window = some w ∧
      (w.fields.map Prod.fst =
        [ "configured_window_days", "actual_window_days", "window_extended"
        , "min_samples", "sample_count" ]) ∧
      (∃ b, ("window_extended", JsonVal.boolean b) ∈ w.fields) ∧
      (∃ q, ("min_samples", JsonVal.num q) ∈ w.fields) ∧
      (∃ q, ("sample_count", JsonVal.num q) ∈ w.fields) :=
  driftResult_window_fields
    ⟨"r1", some "run1", "f1", "age", "psi", 1/2, 1/10, true,
      ⟨some ⟨7, 14, true, 200, 250⟩⟩, 0⟩
    (by simp)

/-- C4 counterexample: the claim that every history entry exposes both a
`status` and an `error_message` fails on the declared `JobHistoryItem`
shape: a concrete completed entry has no `error_message` field at all. -/
theorem jobHistoryItem_no_error_message :
    ¬ ( "status" ∈ (JobHistoryItem.fields ⟨"run1", "completed", 0, "2026-01-15T10:00:00Z"⟩).map Prod.fst ∧
        "error_message" ∈ (JobHistoryItem.fields ⟨"run1", "completed", 0, "2026-01-15T10:00:00Z"⟩).map Prod.fst ) := by
  decide

/-- C4 (amended): every job run history entry returned by `get_history`
exposes exactly `id`, `status`, `drifts_detected` and `run_at`; it exposes
a `status` (by which a failed run is distinguishable from a completed one)
but no `error_message`. -/
theorem jobHistoryItem_fields_spec (h : JobHistoryItem) :
    ((h.fields.map Prod.fst) = ["id", "status", "drifts_detected", "run_at"]) ∧
    ("status", JsonVal.str h.status) ∈ h.fields ∧
    "error_message" ∉ (h.fields.map Prod.fst) := by
  refine ⟨rfl, ?_, ?_⟩
  · simp [JobHistoryItem.fields]
  · simp [JobHistoryItem.fields]

/-- Witness for the amended C4 at a concrete failed history entry. -/
theorem jobHistoryItem_fields_spec_witness :
    ((JobHistoryItem.fields ⟨"run2", "failed", 0, "2026-01-16T02:00:00Z"⟩).map Prod.fst
      = ["id", "status", "drifts_detected", "run_at"]) ∧
    ("status", JsonVal.str "failed")
      ∈ JobHistoryItem.fields ⟨"run2", "failed", 0, "2026-01-16T02:00:00Z"⟩ ∧
    "error_message" ∉ (JobHistoryItem.fields
      ⟨"run2", "failed", 0, "2026-01-16T02:00:00Z"⟩).map Prod.fst :=
  jobHistoryItem_fields_spec ⟨"run2", "failed", 0, "2026-01-16T02:00:00Z"⟩

/-- C6: every `JobRun` has a status drawn from exactly
pending/running/completed/failed, always exposes a non-null `started_at`
string, and `completed_at` / `error_message` are nullable — null exactly
when absent, both forms being realisable. -/
theorem jobRun_status_and_nullability (r : JobRun) :
    (r.status = .pending ∨ r.status = .running ∨ r.status = .completed ∨
      r.status = .failed) ∧
    (r.status.toString ∈ ["pending", "running", "completed", "failed"]) ∧
    ("started_at", JsonVal.str r.started_at) ∈ r.fields ∧
    (∀ v, ("started_at", v) ∈ r.fields → v = JsonVal.str r.started_at) ∧
    ("completed_at", optStr r.completed_at) ∈ r.fields ∧
    ("error_message", optStr r.error_message) ∈ r.fields ∧
    (r.completed_at = none → optStr r.completed_at = JsonVal.null) ∧
    (∀ s, r.completed_at = some s → optStr r.completed_at = JsonVal.str s) ∧
    (r.error_message = none → optStr r.error_message = JsonVal.null) ∧
    (∀ s, r.error_message = some s → optStr r.error_message = JsonVal.str s) := by
  refine ⟨?_, ?_, ?_, ?_, ?_, ?_, ?_, ?_, ?_, ?_⟩
  · cases r.status <;> simp
  · cases r.status <;> simp [JobStatus.toString]
  · simp [JobRun.fields]
  · intro v hv
    simp [JobRun.fields] at hv
    rcases hv with h | h | h | h | h | h <;> simp_all
  · simp [JobRun.fields]
  · simp [JobRun.fields]
  · intro h; simp [h, optStr]
  · intro s h; simp [h, optStr]
  · intro h; simp [h, optStr]
  · intro s h; simp [h, optStr]

/-- Witness for C6 at a concrete non-terminal run (null `completed_at` and
`error_message`). -/
theorem jobRun_status_and_nullability_witness :
    (JobRun.status ⟨"r1", "j1", .running, "2026-01-15T10:00:00Z", none, none⟩ = .pending ∨
      JobRun.status ⟨"r1", "j1", .running, "2026-01-15T10:00:00Z", none, none⟩ = .running ∨
      JobRun.status ⟨"r1", "j1", .running, "2026-01-15T10:00:00Z", none, none⟩ = .completed ∨
      JobRun.status ⟨"r1", "j1", .running, "2026-01-15T10:00:00Z", none, none⟩ = .failed) ∧
    optStr (JobRun.completed_at ⟨"r1", "j1", .running, "2026-01-15T10:00:00Z", none, none⟩) = JsonVal.null := by
  have h := jobRun_status_and_nullability ⟨"r1", "j1", .running, "2026-01-15T10:00:00Z", none, none⟩
  exact ⟨h.1, h.2.2.2.2.2.2.1 rfl⟩

/-- The drift-results page state touched by `saveThreshold` in
`DriftResultsPage.vue`: the loaded schema fields, the loaded drift results
and the `thresholdsChanged` banner flag. -/
structure PageState where
  schemaFields : List SchemaField
  driftResults : List DriftResult
  thresholdsChanged : Bool
deriving DecidableEq, Repr

/-- `fieldSchemaMap` in `DriftResultsPage.vue` is built by overwriting
insertion (`map[sf.field_name] = sf`), so a lookup yields the last field
with the given name; `saveThreshold` mutates that field's
`alert_threshold`. This helper performs that update on the field list. -/
def updateLastThreshold (name : String) (v : Option ℚ) :
    List SchemaField → List SchemaField
  | [] => []
  | sf :: rest =>
    if rest.any (fun f => f.field_name = name) then
      sf :: updateLastThreshold name v rest
    else if sf.field_name = name then
      { sf with alert_threshold := v } :: rest
    else
      sf :: updateLastThreshold name v rest

/-- `saveThreshold` from `DriftResultsPage.vue` (success path): looks the
field up in `fieldSchemaMap`; when absent it returns early, otherwise it
sets that field's `alert_threshold` to the edited value and raises the
`thresholdsChanged` flag. It never touches `driftResults`. -/
def saveThreshold (st : PageState) (name : String) (v : Option ℚ) : PageState :=
  if st.schemaFields.any (fun f => f.field_name = name) then
    { st with
        schemaFields := updateLastThreshold name v st.schemaFields
        thresholdsChanged := true }
  else st

/-- `JobConfig` from `frontend/src/types/index.ts` (fields used by
`triggerAllForVersion`). -/
structure JobConfigR where
  id : String
  model_version_id : String
  is_active : Bool
deriving DecidableEq, Repr

/-- The backend state the jobs API acts on: the job configs, the stored
job runs and the stored drift results. -/
structure JobsBackend where
  jobs : List JobConfigR
  runs : List JobRun
  results : List DriftResult
deriving DecidableEq, Repr

/-- Modelled from the spec: `trigger(job_id)` creates a new `JobRun` for
the config; it appends a fresh run and neither mutates nor deletes prior
runs or results. The scheduler itself is backend code not among the
frontend sources. -/
def trigger (b : JobsBackend) (jobId : String) (startedAt : String) : JobsBackend :=
  { b with
      runs := b.runs ++
        [ { id := "run-" ++ toString b.runs.length
          , job_config_id := jobId
          , status := JobStatus.pending
          , started_at := startedAt
          , completed_at := none
          , error_message := none } ] }

/-- `triggerAllForVersion` from `frontend/src/api/jobs.ts`: lists the
version's job configs, keeps the active ones, triggers each, and returns
the number of active jobs triggered. -/
def triggerAllForVersion (b : JobsBackend) (versionId : String)
    (startedAt : String) : JobsBackend × ℕ :=
  let activeJobs := (b.jobs.filter (fun j => j.model_version_id = versionId)).filter
    (fun j => j.is_active)
  (activeJobs.foldl (fun acc j => trigger acc j.id startedAt) b, activeJobs.length)

lemma updateLastThreshold_length (name : String) (v : Option ℚ) :
    ∀ l : List SchemaField, (updateLastThreshold name v l).length = l.length := by
  intro l
  induction l with
  | nil => rfl
  | cons sf rest ih =>
      simp only [updateLastThreshold]
      split
      · simpa using ih
      · split <;> simp [ih]

lemma updateLastThreshold_getElem (name : String) (v : Option ℚ) :
    ∀ (l : List SchemaField) (i : ℕ),
      (updateLastThreshold name v l)[i]? = l[i]? ∨
      ∃ sf, l[i]? = some sf ∧ sf.field_name = name ∧
        (updateLastThreshold name v l)[i]? = some { sf with alert_threshold := v } := by
  intro l
  induction l with
  | nil => intro i; left; rfl
  | cons sf rest ih =>
      intro i
      simp only [updateLastThreshold]
      split
      · cases i with
        | zero => left; simp
        | succ n =>
            rcases ih n with h | ⟨sf', h1, h2, h3⟩
            · left; simpa using h
            · right; exact ⟨sf', by simpa using h1, h2, by simpa using h3⟩
      · split
        · cases i with
          | zero =>
              right
              refine ⟨sf, by simp, by assumption, by simp⟩
          | succ n => left; simp
        · cases i with
          | zero => left; simp
          | succ n =>
              rcases ih n with h | ⟨sf', h1, h2, h3⟩
              · left; simpa using h
              · right; exact ⟨sf', by simpa using h1, h2, by simpa using h3⟩

lemma triggerFold_runs_append (startedAt : String) :
    ∀ (js : List JobConfigR) (b : JobsBackend),
      ∃ newRuns : List JobRun,
        (js.foldl (fun acc j => trigger acc j.id startedAt) b).runs
          = b.runs ++ newRuns ∧
        newRuns.length = js.length ∧
        (js.foldl (fun acc j => trigger acc j.id startedAt) b).results = b.results ∧
        (js.foldl (fun acc j => trigger acc j.id startedAt) b).jobs = b.jobs := by
  intro js
  induction js with
  | nil => intro b; exact ⟨[], by simp⟩
  | cons j rest ih =>
      intro b
      rcases ih (trigger b j.id startedAt) with ⟨newRuns, h1, h2, h3, h4⟩
      refine ⟨(⟨"run-" ++ toString b.runs.length, j.id, JobStatus.pending,
        startedAt, none, none⟩ : JobRun) :: newRuns, ?_, ?_, ?_, ?_⟩
      · simpa [trigger] using h1
      · simp [h2]
      · simpa [trigger] using h3
      · simpa [trigger] using h4

/-- C3: `saveThreshold` leaves every loaded DriftResult untouched and
changes at most one schema field, and there only `alert_threshold` (the
changed field bears the edited name); it raises `thresholdsChanged` when
the field exists and is a no-op otherwise. Re-running
(`rerunAllJobs → triggerAllForVersion`) only appends fresh JobRuns — one
per active job of the version — and neither mutates nor deletes prior runs
or results. -/
theorem saveThreshold_frame_and_rerun_appends
    (st : PageState) (name : String) (v : Option ℚ)
    (b : JobsBackend) (versionId startedAt : String) :
    ((saveThreshold st name v).driftResults = st.driftResults) ∧
    ((saveThreshold st name v).schemaFields.length = st.schemaFields.length) ∧
    (∀ i : ℕ,
      (saveThreshold st name v).schemaFields[i]? = st.schemaFields[i]? ∨
      ∃ sf, st.schemaFields[i]? = some sf ∧ sf.field_name = name ∧
        (saveThreshold st name v).schemaFields[i]?
          = some { sf with alert_threshold := v }) ∧
    ((∃ sf ∈ st.schemaFields, sf.field_name = name) →
      (saveThreshold st name v).thresholdsChanged = true) ∧
    ((¬ ∃ sf ∈ st.schemaFields, sf.field_name = name) →
      saveThreshold st name v = st) ∧
    (∃ newRuns : List JobRun,
      (triggerAllForVersion b versionId startedAt).1.runs = b.runs ++ newRuns ∧
      newRuns.length = (triggerAllForVersion b versionId startedAt).2 ∧
      (triggerAllForVersion b versionId startedAt).1.results = b.results ∧
      (triggerAllForVersion b versionId startedAt).1.jobs = b.jobs) := by
  refine ⟨?_, ?_, ?_, ?_, ?_, ?_⟩
  · simp only [saveThreshold]; split <;> rfl
  · simp only [saveThreshold]; split
    · simpa using updateLastThreshold_length name v st.schemaFields
    · rfl
  · intro i
    simp only [saveThreshold]
    split
    · exact updateLastThreshold_getElem name v st.schemaFields i
    · left; rfl
  · intro ⟨sf, hmem, hname⟩
    simp only [saveThreshold]
    rw [if_pos]
    exact List.any_eq_true.mpr ⟨sf, hmem, by simp [hname]⟩
  · intro h
    simp only [saveThreshold]
    rw [if_neg]
    intro hany
    rcases List.any_eq_true.mp hany with ⟨sf, hmem, hname⟩
    exact h ⟨sf, hmem, by simpa using hname⟩
  · simpa [triggerAllForVersion] using
      triggerFold_runs_append startedAt
        ((b.jobs.filter (fun j => j.model_version_id = versionId)).filter
          (fun j => j.is_active)) b

/-- Witness for C3 at a concrete page state and backend: one matching
field, one active job. -/
theorem saveThreshold_frame_and_rerun_appends_witness :
    (saveThreshold
        ⟨[⟨"f1", "age", "input", "numerical", none, none⟩], [], false⟩
        "age" (some (3/10))).thresholdsChanged = true ∧
    (saveThreshold
        ⟨[⟨"f1", "age", "input", "numerical", none, none⟩], [], false⟩
        "age" (some (3/10))).driftResults = [] := by
  have h := saveThreshold_frame_and_rerun_appends
    ⟨[⟨"f1", "age", "input", "numerical", none, none⟩], [], false⟩
    "age" (some (3/10))
    ⟨[⟨"j1", "v1", true⟩], [], []⟩ "v1" "2026-01-15T10:00:00Z"
  refine ⟨h.2.2.2.1 ?_, h.1⟩
  exact ⟨⟨"f1", "age", "input", "numerical", none, none⟩, by simp, rfl⟩

/-- Modelled from the spec: the days between the version's earliest
inference data and now that lack a completed run; the scheduler's backfill
is backend code not among the frontend sources. Days are abstracted to day
indices. -/
def missingDays (earliest now : ℕ) (completedDays : List ℕ) : List ℕ :=
  (List.range' earliest (now + 1 - earliest)).filter
    (fun d => ¬ completedDays.contains d)

/-- Modelled from the spec: `backfill(job)` creates one JobRun per missing
day (sequentially), returning the day list of the runs it created. -/
def backfillRuns (earliest now : ℕ) (completedDays : List ℕ) : List ℕ :=
  missingDays earliest now completedDays

/-- Modelled from the spec, matching the frontend's
`backfill(jobId) -> {runs_created}` in `frontend/src/api/jobs.ts`:
the returned `runs_created` value is the count of runs created. -/
def backfillRunsCreated (earliest now : ℕ) (completedDays : List ℕ) : ℕ :=
  (backfillRuns earliest now completedDays).length

/-- C5: `backfill` returns `{runs_created}` equal to the number of JobRuns
it creates, and it creates exactly one run per day between the version's
earliest inference data and now that lacks a completed run. -/
theorem backfill_runs_created_counts_missing_days
    (earliest now : ℕ) (completedDays : List ℕ) :
    (backfillRunsCreated earliest now completedDays
      = (backfillRuns earliest now completedDays).length) ∧
    (∀ d, d ∈ backfillRuns earliest now completedDays ↔
      (earliest ≤ d ∧ d ≤ now ∧ d ∉ completedDays)) ∧
    (backfillRuns earliest now completedDays).Nodup := by
  refine ⟨rfl, ?_, ?_⟩
  · intro d
    simp only [backfillRuns, missingDays, List.mem_filter, List.mem_range'_1]
    constructor
    · rintro ⟨⟨h1, h2⟩, h3⟩
      refine ⟨h1, by omega, ?_⟩
      simpa using h3
    · rintro ⟨h1, h2, h3⟩
      exact ⟨⟨h1, by omega⟩, by simpa using h3⟩
  · have hnd : (List.range' earliest (now + 1 - earliest)).Nodup :=
      (List.pairwise_lt_range' earliest (now + 1 - earliest) 1 (by omega)).imp
        (fun h => Nat.ne_of_lt h)
    exact hnd.filter _

/-- Witness for C5 on a 7-day gap with no completed runs: exactly 7 runs
are created. -/
theorem backfill_runs_created_witness :
    backfillRunsCreated 10 16 [] = (backfillRuns 10 16 []).length ∧
    (5 ∈ backfillRuns 10 16 [] ↔ (10 ≤ 5 ∧ 5 ≤ 16 ∧ 5 ∉ ([] : List ℕ))) := by
  have h := backfill_runs_created_counts_missing_days 10 16 []
  exact ⟨h.1, h.2.1 5⟩

/-- `NumericalStatistics` from `frontend/src/types/index.ts`. -/
structure NumericalStatistics where
  mean : ℚ
  median : ℚ
  std : ℚ
  min : ℚ
  max : ℚ
  count : ℚ
  null_count : ℚ
deriving DecidableEq, Repr

/-- The JSON field bag of a `NumericalStatistics`, in interface declaration
order. -/
def NumericalStatistics.fields (s : NumericalStatistics) : List (String × JsonVal) :=
  [ ("mean", .num s.mean)
  , ("median", .num s.median)
  , ("std", .num s.std)
  , ("min", .num s.min)
  , ("max", .num s.max)
  , ("count", .num s.count)
  , ("null_count", .num s.null_count) ]

/-- `HistogramBucket` from `frontend/src/types/index.ts`. -/
structure HistogramBucket where
  range_start : ℚ
  range_end : ℚ
  count : ℕ
deriving DecidableEq, Repr

/-- The JSON field bag of a `HistogramBucket`, in interface declaration
order. -/
def HistogramBucket.fields (b : HistogramBucket) : List (String × JsonVal) :=
  [ ("range_start", .num b.range_start)
  , ("range_end", .num b.range_end)
  , ("count", .num b.count) ]

/-- `HistogramData` from `frontend/src/types/index.ts`: a numerical
distribution summary is a bucket list plus the numerical statistics. -/
structure HistogramData where
  buckets : List HistogramBucket
  statistics : NumericalStatistics
deriving DecidableEq, Repr

/-- `CategoryCount` from `frontend/src/types/index.ts`. -/
structure CategoryCount where
  value : String
  count : ℕ
  percentage : ℚ
deriving DecidableEq, Repr

/-- The JSON field bag of a `CategoryCount`, in interface declaration
order. -/
def CategoryCount.fields (c : CategoryCount) : List (String × JsonVal) :=
  [ ("value", .str c.value)
  , ("count", .num c.count)
  , ("percentage", .num c.percentage) ]

/-- `CategoricalStatistics` from `frontend/src/types/index.ts`. -/
structure CategoricalStatistics where
  unique_count : ℕ
  total_count : ℕ
  null_count : ℕ
  top_category : Option String
deriving DecidableEq, Repr

/-- The JSON field bag of a `CategoricalStatistics`, in interface
declaration order. -/
def CategoricalStatistics.fields (s : CategoricalStatistics) : List (String × JsonVal) :=
  [ ("unique_count", .num s.unique_count)
  , ("total_count", .num s.total_count)
  , ("null_count", .num s.null_count)
  , ("top_category", optStr s.top_category) ]

/-- `CategoricalData` from `frontend/src/types/index.ts`. -/
structure CategoricalData where
  categories : List CategoryCount
  statistics : CategoricalStatistics
deriving DecidableEq, Repr

/-- Count of occurrences of one value in a sample. -/
def countOf (values : List String) (v : String) : ℕ :=
  (values.filter (fun x => x = v)).length

/-- Descending-count order on category entries. -/
def catCountDescOrder (a b : CategoryCount) : Prop := b.count ≤ a.count

instance : DecidableRel catCountDescOrder := fun a b =>
  inferInstanceAs (Decidable (b.count ≤ a.count))

instance : IsTotal CategoryCount catCountDescOrder :=
  ⟨fun a b => (le_total b.count a.count).imp id id⟩

instance : IsTrans CategoryCount catCountDescOrder :=
  ⟨fun _ _ _ h1 h2 => le_trans h2 h1⟩

/-- Modelled from the spec: the statistics aggregator's categorical
summary — nulls counted in `null_count` and excluded from category counts,
one entry per distinct value with `percentage = count/total_count×100`,
sorted by descending count; the aggregator is backend code not among the
frontend sources. -/
def categoricalSummary (raw : List (Option String)) : CategoricalData :=
  let values := raw.filterMap id
  let distinct := values.eraseDups
  let total := values.length
  let cats := distinct.map (fun v =>
    ({ value := v, count := countOf values v
     , percentage := (countOf values v : ℚ) / (total : ℚ) * 100 } : CategoryCount))
  let sortedCats := cats.insertionSort catCountDescOrder
  { categories := sortedCats
  , statistics :=
    { unique_count := distinct.length
    , total_count := total
    , null_count := raw.length - values.length
    , top_category := sortedCats.head?.map (fun c => c.value) } }

/-- C7: a numerical distribution summary (`HistogramData`) carries a
bucket list — each bucket with range_start, range_end and count — plus
exactly the statistics mean, median, std, min, max, count, null_count; a
categorical summary's per-category entries carry exactly value, count and
percentage with `percentage = count/total_count×100`, and its statistics
carry unique_count, total_count and null_count. -/
theorem distribution_summary_shapes :
    (∀ hd : HistogramData,
      (∀ b ∈ hd.buckets, b.fields.map Prod.fst =
        ["range_start", "range_end", "count"]) ∧
      hd.statistics.fields.map Prod.fst =
        ["mean", "median", "std", "min", "max", "count", "null_count"]) ∧
    (∀ s : NumericalStatistics, s.fields.map Prod.fst =
      ["mean", "median", "std", "min", "max", "count", "null_count"]) ∧
    (∀ c : CategoryCount, c.fields.map Prod.fst =
      ["value", "count", "percentage"]) ∧
    (∀ raw : List (Option String), ∀ c ∈ (categoricalSummary raw).categories,
      c.percentage = (c.count : ℚ)
        / ((categoricalSummary raw).statistics.total_count : ℚ) * 100) ∧
    (∀ s : CategoricalStatistics,
      ("unique_count", JsonVal.num s.unique_count) ∈ s.fields ∧
      ("total_count", JsonVal.num s.total_count) ∈ s.fields ∧
      ("null_count", JsonVal.num s.null_count) ∈ s.fields) := by
  refine ⟨fun hd => ⟨fun b _ => rfl, rfl⟩, fun s => rfl, fun c => rfl, ?_, ?_⟩
  · intro raw c hc
    simp only [categoricalSummary] at hc ⊢
    have hmem : c ∈ ((raw.filterMap id).eraseDups.map (fun v =>
        ({ value := v, count := countOf (raw.filterMap id) v
         , percentage := (countOf (raw.filterMap id) v : ℚ)
             / ((raw.filterMap id).length : ℚ) * 100 } : CategoryCount))) :=
      (List.perm_insertionSort catCountDescOrder _).mem_iff.mp hc
    rcases List.mem_map.mp hmem with ⟨v, _, hv⟩
    subst hv
    rfl
  · intro s
    refine ⟨?_, ?_, ?_⟩ <;> simp [CategoricalStatistics.fields]

/-- Witness for C7: a concrete one-bucket numerical summary exposes the
bucket shape and exactly the seven statistics, and on a concrete
categorical sample (3 non-null values, 2 distinct categories) each entry's
percentage is count/total×100. -/
theorem distribution_summary_shapes_witness :
    ((HistogramBucket.fields ⟨0, 10, 5⟩).map Prod.fst
      = ["range_start", "range_end", "count"]) ∧
    ((HistogramData.statistics
        ⟨[⟨0, 10, 5⟩], ⟨5, 5, 1, 0, 10, 5, 0⟩⟩).fields.map Prod.fst
      = ["mean", "median", "std", "min", "max", "count", "null_count"]) ∧
    ∀ c ∈ (categoricalSummary [some "a", some "b", some "a", none]).categories,
      c.percentage = (c.count : ℚ)
        / (((categoricalSummary [some "a", some "b", some "a", none]).statistics.total_count : ℕ) : ℚ) * 100 :=
  ⟨(distribution_summary_shapes.1 ⟨[⟨0, 10, 5⟩], ⟨5, 5, 1, 0, 10, 5, 0⟩⟩).1
      ⟨0, 10, 5⟩ (by simp),
   (distribution_summary_shapes.1 ⟨[⟨0, 10, 5⟩], ⟨5, 5, 1, 0, 10, 5, 0⟩⟩).2,
   distribution_summary_shapes.2.2.2.1 [some "a", some "b", some "a", none]⟩

/-- The comparator `(a, b) => new Date(b.created_at).getTime() - new
Date(a.created_at).getTime()` used by `getFieldResults` in
`DriftResultsPage.vue`: descending order of `created_at`. -/
def resultDescOrder (a b : DriftResult) : Prop := b.created_at ≤ a.created_at

instance : DecidableRel resultDescOrder := fun a b =>
  inferInstanceAs (Decidable (b.created_at ≤ a.created_at))

instance : IsTotal DriftResult resultDescOrder :=
  ⟨fun a b => (le_total b.created_at a.created_at).imp id id⟩

instance : IsTrans DriftResult resultDescOrder :=
  ⟨fun _ _ _ h1 h2 => le_trans h2 h1⟩

/-- `getFieldResults` from `DriftResultsPage.vue`: the results whose
`field_name` matches, sorted by `created_at` descending. -/
def getFieldResults (allResults : List DriftResult) (fieldName : String) :
    List DriftResult :=
  (allResults.filter (fun r => r.field_name = fieldName)).insertionSort
    resultDescOrder

/-- `getFieldLatestScore` from `DriftResultsPage.vue`:
`results[0]?.score ?? 0`. -/
def getFieldLatestScore (allResults : List DriftResult) (fieldName : String) : ℚ :=
  ((getFieldResults allResults fieldName).head?.map (fun r => r.score)).getD 0

/-- C8: `getFieldResults` returns exactly the results whose `field_name`
matches, sorted by `created_at` descending, and `getFieldLatestScore`
returns the score of a matching result with maximal `created_at`, or 0
when the field has no results. -/
theorem getFieldResults_and_latest_score_spec
    (allResults : List DriftResult) (fieldName : String) :
    ((getFieldResults allResults fieldName).Perm
      (allResults.filter (fun r => r.field_name = fieldName))) ∧
    (∀ r ∈ getFieldResults allResults fieldName, r.field_name = fieldName) ∧
    ((getFieldResults allResults fieldName).Pairwise
      (fun a b => b.created_at ≤ a.created_at)) ∧
    (allResults.filter (fun r => r.field_name = fieldName) = [] →
      getFieldLatestScore allResults fieldName = 0) ∧
    (∀ r₀, (getFieldResults allResults fieldName).head? = some r₀ →
      getFieldLatestScore allResults fieldName = r₀.score ∧
      r₀ ∈ allResults ∧ r₀.field_name = fieldName ∧
      ∀ r ∈ allResults, r.field_name = fieldName →
        r.created_at ≤ r₀.created_at) := by
  have hperm : (getFieldResults allResults fieldName).Perm
      (allResults.filter (fun r => r.field_name = fieldName)) :=
    List.perm_insertionSort resultDescOrder _
  have hsorted : (getFieldResults allResults fieldName).Sorted resultDescOrder :=
    List.sorted_insertionSort resultDescOrder _
  refine ⟨hperm, ?_, hsorted, ?_, ?_⟩
  · intro r hr
    have := List.mem_filter.mp (hperm.mem_iff.mp hr)
    simpa using this.2
  · intro hempty
    have : getFieldResults allResults fieldName = [] := by
      have := hperm
      rw [hempty] at this
      exact this.eq_nil
    simp [getFieldLatestScore, this]
  · intro r₀ hhead
    obtain ⟨rest, hcons⟩ :
        ∃ rest, getFieldResults allResults fieldName = r₀ :: rest := by
      cases hgf : getFieldResults allResults fieldName with
      | nil => rw [hgf] at hhead; simp at hhead
      | cons a t =>
          rw [hgf] at hhead
          simp only [List.head?_cons, Option.some.injEq] at hhead
          exact ⟨t, by rw [hhead]⟩
    have hmem : r₀ ∈ allResults.filter (fun r => r.field_name = fieldName) := by
      apply hperm.mem_iff.mp
      rw [hcons]; exact List.mem_cons_self _ _
    have hmem' := List.mem_filter.mp hmem
    refine ⟨?_, hmem'.1, by simpa using hmem'.2, ?_⟩
    · simp [getFieldLatestScore, hhead]
    · intro r hr hfn
      have hrmem : r ∈ getFieldResults allResults fieldName :=
        hperm.mem_iff.mpr (List.mem_filter.mpr ⟨hr, by simpa using hfn⟩)
      rw [hcons] at hrmem
      rcases List.mem_cons.mp hrmem with h | h
      · subst h; exact le_refl _
      · have hs := hsorted
        rw [hcons] at hs
        exact (List.sorted_cons.mp hs).1 r h

/-- Witness for C8: three results for `age` (one of another field); the
latest score is the one with maximal `created_at`. -/
theorem getFieldResults_and_latest_score_witness :
    getFieldLatestScore
      [ ⟨"1", none, "f1", "age", "psi", 1/10, 1/10, false, ⟨none⟩, 100⟩
      , ⟨"2", none, "f1", "age", "psi", 3/10, 1/10, true, ⟨none⟩, 300⟩
      , ⟨"3", none, "f2", "height", "psi", 9/10, 1/10, true, ⟨none⟩, 400⟩
      , ⟨"4", none, "f1", "age", "psi", 2/10, 1/10, true, ⟨none⟩, 200⟩ ] "age"
      = 3/10 := by
  have h := getFieldResults_and_latest_score_spec
    [ ⟨"1", none, "f1", "age", "psi", 1/10, 1/10, false, ⟨none⟩, 100⟩
    , ⟨"2", none, "f1", "age", "psi", 3/10, 1/10, true, ⟨none⟩, 300⟩
    , ⟨"3", none, "f2", "height", "psi", 9/10, 1/10, true, ⟨none⟩, 400⟩
    , ⟨"4", none, "f1", "age", "psi", 2/10, 1/10, true, ⟨none⟩, 200⟩ ] "age"
  have := (h.2.2.2.2 ⟨"2", none, "f1", "age", "psi", 3/10, 1/10, true, ⟨none⟩, 300⟩
    (by rfl)).1
  simpa using this

/-- `driftCount` from `DriftResultsPage.vue`: the number of loaded results
with `is_drifted`. -/
def driftCount (results : List DriftResult) : ℕ :=
  (results.filter (fun r => r.is_drifted)).length

/-- `Math.round` on a non-negative JS number: round half away from zero is
round half up there, i.e. `⌊q + 1/2⌋`. -/
def jsRound (q : ℚ) : ℤ := ⌊q + 1 / 2⌋

/-- `healthPercentage` from `DriftResultsPage.vue`: 100 when no results
are loaded, otherwise `Math.round(((total − drifted) / total) × 100)`. -/
def healthPercentage (results : List DriftResult) : ℤ :=
  if results.length = 0 then 100
  else jsRound (((results.length : ℚ) - (driftCount results : ℚ))
    / (results.length : ℚ) * 100)

/-- C9: `healthPercentage` always lies in [0, 100]; it is 100 on an empty
result list and otherwise equals `round(100 × (total − drifted) / total)`. -/
theorem healthPercentage_bounds_and_formula (results : List DriftResult) :
    (0 ≤ healthPercentage results) ∧
    (healthPercentage results ≤ 100) ∧
    (results = [] → healthPercentage results = 100) ∧
    (results ≠ [] → healthPercentage results
      = jsRound (((results.length : ℚ) - (driftCount results : ℚ))
          / (results.length : ℚ) * 100)) := by
  by_cases hnil : results = []
  · subst hnil
    refine ⟨by norm_num [healthPercentage], by norm_num [healthPercentage],
      fun _ => rfl, fun h => absurd rfl h⟩
  · have hlen : 0 < results.length := List.length_pos.mpr hnil
    have hcount : driftCount results ≤ results.length :=
      List.length_filter_le _ _
    have hq0 : (0 : ℚ) < (results.length : ℚ) := by exact_mod_cast hlen
    set q : ℚ := ((results.length : ℚ) - (driftCount results : ℚ))
      / (results.length : ℚ) * 100 with hqdef
    have hqnonneg : 0 ≤ q := by
      apply mul_nonneg _ (by norm_num)
      apply div_nonneg _ (le_of_lt hq0)
      have : (driftCount results : ℚ) ≤ (results.length : ℚ) := by
        exact_mod_cast hcount
      linarith
    have hqle : q ≤ 100 := by
      have hle1 : ((results.length : ℚ) - (driftCount results : ℚ))
          / (results.length : ℚ) ≤ 1 := by
        rw [div_le_one hq0]
        have : (0 : ℚ) ≤ (driftCount results : ℚ) := by positivity
        linarith
      calc q ≤ 1 * 100 := by
              rw [hqdef]
              exact mul_le_mul_of_nonneg_right hle1 (by norm_num)
        _ = 100 := by norm_num
    have hval : healthPercentage results = jsRound q := by
      simp only [healthPercentage, hqdef]
      rw [if_neg (by omega)]
    refine ⟨?_, ?_, fun h => absurd h hnil, fun _ => hval⟩
    · rw [hval]
      have : (0 : ℚ) ≤ q + 1 / 2 := by linarith
      exact Int.le_floor.mpr (by push_cast; linarith)
    · rw [hval]
      have : q + 1 / 2 < 101 := by linarith
      have hfl : jsRound q < 101 := Int.floor_lt.mpr (by push_cast; linarith)
      omega

/-- Witness for C9: two results, one drifted, gives 50% health. -/
theorem healthPercentage_witness :
    healthPercentage
      [ ⟨"1", none, "f1", "age", "psi", 3/10, 1/10, true, ⟨none⟩, 100⟩
      , ⟨"2", none, "f1", "age", "psi", 1/100, 1/10, false, ⟨none⟩, 200⟩ ]
      = 50 := by
  have h := (healthPercentage_bounds_and_formula
    [ ⟨"1", none, "f1", "age", "psi", 3/10, 1/10, true, ⟨none⟩, 100⟩
    , ⟨"2", none, "f1", "age", "psi", 1/100, 1/10, false, ⟨none⟩, 200⟩ ]).2.2.2
    (by simp)
  rw [h]
  norm_num [driftCount, jsRound]

/-- `Notification` from `frontend/src/types/index.ts` (fields used by the
notifications page), with `created_at` as the millisecond timestamp
obtained via `new Date(...).getTime()`. -/
structure Notification where
  id : String
  title : String
  message : String
  severity : String
  is_read : Bool
  created_at : ℤ
deriving DecidableEq, Repr

/-- The inner-loop condition of `displayItems`: the next notification is
within 5 seconds of the cluster's first notification and has the same
severity (`timeDiff <= 5000 && next.severity === current.severity`). -/
def clusterPred (current next : Notification) : Bool :=
  decide ((current.created_at - next.created_at).natAbs ≤ 5000) &&
    decide (next.severity = current.severity)

/-- `DisplayItem` from the notifications page: a single notification or a
grouped cluster. -/
inductive DisplayItem where
  | single (key : String) (n : Notification)
  | group (key title severity : String) (hasUnread : Bool)
      (notifs : List Notification)
deriving DecidableEq, Repr

/-- Whether a notification's lowercased title contains "drift"
(`n.title.toLowerCase().includes('drift')`). -/
def titleHasDrift (n : Notification) : Bool :=
  (n.title.toLower.splitOn "drift").length > 1

/-- The group title computed in `displayItems`. -/
def groupTitle (cluster : List Notification) (severity : String) : String :=
  let driftNotifCount := (cluster.filter titleHasDrift).length
  if driftNotifCount > 0 then
    "Drift detected in " ++ toString driftNotifCount ++ " field" ++
      (if driftNotifCount > 1 then "s" else "")
  else
    toString cluster.length ++ " " ++ severity ++ " notifications"

lemma length_dropWhile_le_self {α : Type} (p : α → Bool) (l : List α) :
    (l.dropWhile p).length ≤ l.length := by
  induction l with
  | nil => simp
  | cons a l ih =>
      rw [List.dropWhile_cons]
      split
      · exact le_trans ih (Nat.le_succ _)
      · simp

/-- `displayItems` from the notifications page: walk the (filtered,
sorted) notification list; starting at each position, collect the maximal
run of following notifications matching the first one's severity within 5
seconds; emit a group when the cluster has more than one member, a single
item otherwise; continue after the cluster. -/
def displayItems : List Notification → List DisplayItem
  | [] => []
  | current :: rest =>
    let cluster := current :: rest.takeWhile (clusterPred current)
    (if cluster.length > 1 then
        DisplayItem.group ("group-" ++ current.id)
          (groupTitle cluster current.severity) current.severity
          (cluster.any (fun n => !n.is_read)) cluster
      else DisplayItem.single current.id current) ::
      displayItems (rest.dropWhile (clusterPred current))
termination_by l => l.length
decreasing_by
  simp only [List.length_cons]
  exact Nat.lt_succ_of_le (length_dropWhile_le_self _ _)

/-- The notifications carried by one display item. -/
def itemNotifs : DisplayItem → List Notification
  | .single _ n => [n]
  | .group _ _ _ _ ns => ns

/-- C10: concatenating, in order, the notifications of the items produced
by `displayItems` yields exactly the input notification list (each
notification lands in exactly one item, order preserved), and every group
item holds only notifications with the severity of — and within 5 seconds
of — the group's first notification. -/
theorem displayItems_partition_and_groups (l : List Notification) :
    ((displayItems l).flatMap itemNotifs = l) ∧
    (∀ k t s h ns, DisplayItem.group k t s h ns ∈ displayItems l →
      ∃ c tl, ns = c :: tl ∧ s = c.severity ∧
        ∀ n ∈ ns, n.severity = c.severity ∧
          (c.created_at - n.created_at).natAbs ≤ 5000) := by
  induction l using displayItems.induct with
  | case1 =>
      refine ⟨by simp [displayItems], ?_⟩
      intro k t s h ns hmem
      simp [displayItems] at hmem
  | case2 c rest ih =>
      obtain ⟨ih1, ih2⟩ := ih
      constructor
      · rw [displayItems]
        simp only [List.flatMap_cons, ih1]
        split
        · rw [itemNotifs, List.cons_append, List.takeWhile_append_dropWhile]
        · rename_i hle
          have htake : rest.takeWhile (clusterPred c) = [] := by
            rcases htw : rest.takeWhile (clusterPred c) with _ | ⟨a, tw⟩
            · rfl
            · rw [htw] at hle
              simp at hle
          have hdrop : rest.dropWhile (clusterPred c) = rest := by
            have hsplit := List.takeWhile_append_dropWhile (clusterPred c) rest
            rw [htake] at hsplit
            simpa using hsplit
          rw [itemNotifs, hdrop]
          rfl
      · intro k t s h ns hmem
        rw [displayItems] at hmem
        rcases List.mem_cons.mp hmem with hhead | htail
        · split at hhead
          · rcases DisplayItem.group.injEq .. ▸ hhead with ⟨hk, ht, hs, hh, hns⟩
            refine ⟨c, rest.takeWhile (clusterPred c), hns, hs, ?_⟩
            intro n hn
            rw [hns] at hn
            rcases List.mem_cons.mp hn with hnc | hnt
            · subst hnc
              exact ⟨rfl, by simp⟩
            · have hp := List.mem_takeWhile_imp hnt
              rw [clusterPred, Bool.and_eq_true, decide_eq_true_eq,
                decide_eq_true_eq] at hp
              exact ⟨hp.2, hp.1⟩
          · exact absurd hhead (by simp)
        · exact ih2 k t s h ns htail

/-- Witness for C10: two warning notifications 3 seconds apart followed by
an info notification form one group and one single item, whose
notifications concatenate back to the input. -/
theorem displayItems_partition_witness :
    (displayItems
      [ ⟨"n1", "Drift detected: age", "m1", "warning", false, 10000⟩
      , ⟨"n2", "Drift detected: height", "m2", "warning", true, 7000⟩
      , ⟨"n3", "Backfill finished", "m3", "info", true, 1000⟩ ]).flatMap itemNotifs
      = [ ⟨"n1", "Drift detected: age", "m1", "warning", false, 10000⟩
        , ⟨"n2", "Drift detected: height", "m2", "warning", true, 7000⟩
        , ⟨"n3", "Backfill finished", "m3", "info", true, 1000⟩ ] ∧
    (∀ k t s h ns, DisplayItem.group k t s h ns ∈ displayItems
        [ ⟨"n1", "Drift detected: age", "m1", "warning", false, 10000⟩
        , ⟨"n2", "Drift detected: height", "m2", "warning", true, 7000⟩
        , ⟨"n3", "Backfill finished", "m3", "info", true, 1000⟩ ] →
      ∃ c tl, ns = c :: tl ∧ s = c.severity ∧
        ∀ n ∈ ns, n.severity = c.severity ∧
          (c.created_at - n.created_at).natAbs ≤ 5000) :=
  displayItems_partition_and_groups
    [ ⟨"n1", "Drift detected: age", "m1", "warning", false, 10000⟩
    , ⟨"n2", "Drift detected: height", "m2", "warning", true, 7000⟩
    , ⟨"n3", "Backfill finished", "m3", "info", true, 1000⟩ ]

/-- Witness for C1 on the spec's worked PSI case: score 0.213 against
threshold 0.2 is flagged as drifted. -/
theorem driftResult_is_drifted_witness :
    (mkDriftResult "r1" none
      ⟨"f1", "age", "input", "numerical", none, some (2/10)⟩
      "psi" (213/1000) ⟨none⟩ 0).is_drifted = true := by
  have h := driftResult_is_drifted_iff_score_gt_threshold "r1" none
    ⟨"f1", "age", "input", "numerical", none, some (2/10)⟩
    "psi" (213/1000) ⟨none⟩ 0
  exact h.1.mpr (by norm_num [mkDriftResult, effectiveThreshold])
